import Mathlib

/-!
Verification development for the Pictensor template repository.

The two algorithmic cores are embedded shallowly:

* `src/template/utils/uids.py` — the peer-sampling algorithm
  (`check_uid_availability`, `get_random_uids`), over an abstract registry
  snapshot (`Metagraph`) and an injected random-sampling primitive
  (`SampleSpec` axiomatises Python's `random.sample` on duplicate-free
  populations);
* `src/template/mock.py` — the mock transport (`single_axon_response`,
  `mockForward`), with elapsed times and the completion schedule of the
  concurrent tasks supplied as explicit parameters; a second, store-based
  model (`hsingle_axon_response`, `hforward`) captures the object-aliasing
  behaviour of the shallow `synapse.copy()` plus metadata re-binding;
* `src/template/validator/forward.py` — one validator query cycle
  (`forwardCycle`), with the reward callback's output as a parameter and
  the absent `update_scores` modelled from the spec.
-/

namespace Pictensor

/-! ## Registry snapshot model (src/template/utils/uids.py) -/

/-- A registry snapshot: `n` peers with uids `0..n-1`; per-uid serving flag
(`metagraph.axons[uid].is_serving`), validator-permit flag
(`metagraph.validator_permit[uid]`) and stake (`metagraph.S[uid]`). -/
structure Metagraph where
  n : ℕ
  axonServing : ℕ → Bool
  validator_permit : ℕ → Bool
  S : ℕ → ℚ

/-- src/template/utils/uids.py lines 7-26: a uid is available iff its axon is
serving and it does not hold a validator permit with stake above the limit. -/
def check_uid_availability (m : Metagraph) (uid : ℕ) (vpermit_tao_limit : ℚ) : Bool :=
  if !(m.axonServing uid) then false
  else if m.validator_permit uid && decide (m.S uid > vpermit_tao_limit) then false
  else true

/-- The `avail_uids` list built by the loop at src/template/utils/uids.py
lines 52-57: uids `0..n-1` that pass `check_uid_availability`, in uid order. -/
def avail_uids (m : Metagraph) (lim : ℚ) : List ℕ :=
  (List.range m.n).filter (fun uid => check_uid_availability m uid lim)

/-- The `candidate_uids` list built by the same loop: available uids that are
not in the exclusion set. -/
def candidate_uids (m : Metagraph) (lim : ℚ) (ex : List ℕ) : List ℕ :=
  (List.range m.n).filter
    (fun uid => check_uid_availability m uid lim && !(ex.contains uid))

/-- Abstract contract of Python's `random.sample(pop, n)` for `n ≤ len(pop)`:
the result has exactly `n` elements, all drawn from the population, and is
duplicate-free whenever the population is.  The sampler itself is a parameter
(spec §4.2: the randomness source is injected). -/
def SampleSpec (sampler : List ℕ → ℕ → List ℕ) : Prop :=
  ∀ (l : List ℕ) (n : ℕ), n ≤ l.length →
    (sampler l n).length = n ∧ (sampler l n) ⊆ l ∧
      (l.Nodup → (sampler l n).Nodup)

/-- Python's `random.sample(pop, k)`: raises `ValueError` when `k` is negative
or exceeds the population size, otherwise returns `k` draws without
replacement. -/
def pySample (sampler : List ℕ → ℕ → List ℕ) (pop : List ℕ) (k : ℤ) :
    Except String (List ℕ) :=
  if k < 0 ∨ (pop.length : ℤ) < k then .error "ValueError"
  else .ok (sampler pop k.toNat)

/-- Outcome of one `get_random_uids` call: the returned uid array (or the
exception raised), together with the number of registry entries examined by
the availability loop. -/
structure SampleRun where
  result : Except String (List ℕ)
  scanned : ℕ

/-- src/template/utils/uids.py lines 29-77 (`get_random_uids`).  The
availability loop (lines 52-57) always scans all `m.n` entries before any use
of `k`, so `scanned = m.n` unconditionally.  `k` is a Python int and may be
negative; lines 59-77 clamp it against the available pool, backfill the
candidate list from excluded-but-available uids when it is short, clamp again,
and draw the final sample (which is where a negative `k` blows up). -/
def get_random_uids (sampler : List ℕ → ℕ → List ℕ) (m : Metagraph) (lim : ℚ)
    (k : ℤ) (exclude : Option (List ℕ)) : SampleRun :=
  let ex := exclude.getD []
  let avail := avail_uids m lim
  let cands := candidate_uids m lim ex
  let k1 : ℤ := min k (avail.length : ℤ)
  let result : Except String (List ℕ) :=
    if k1 = 0 then .ok []
    else
      let step : Except String (List ℕ) :=
        if (cands.length : ℤ) < k1 then
          let ea := avail.filter (fun uid => ex.contains uid)
          let needed := k1 - (cands.length : ℤ)
          if ea ≠ [] then
            match pySample sampler ea (min needed (ea.length : ℤ)) with
            | .error e => .error e
            | .ok extra => .ok (cands ++ extra)
          else .ok cands
        else .ok cands
      match step with
      | .error e => .error e
      | .ok cands2 =>
          let k2 : ℤ := if (cands2.length : ℤ) < k1 then (cands2.length : ℤ) else k1
          pySample sampler cands2 k2
  { result := result, scanned := m.n }

/-- A concrete sampler (take the first `n` elements) satisfying `SampleSpec`,
used to instantiate witnesses. -/
def takeSampler (l : List ℕ) (n : ℕ) : List ℕ := l.take n

theorem takeSampler_spec : SampleSpec takeSampler := by
  intro l n h
  refine ⟨?_, ?_, ?_⟩
  · simp [takeSampler, List.length_take, Nat.min_eq_left h]
  · exact List.take_subset n l
  · intro hl
    exact hl.sublist (List.take_sublist n l)

theorem avail_uids_nodup (m : Metagraph) (lim : ℚ) : (avail_uids m lim).Nodup :=
  (List.nodup_range m.n).filter _

theorem mem_avail_uids {m : Metagraph} {lim : ℚ} {uid : ℕ}
    (h : uid ∈ avail_uids m lim) : check_uid_availability m uid lim = true := by
  simp only [avail_uids, List.mem_filter] at h
  exact h.2

theorem candidate_uids_eq_filter (m : Metagraph) (lim : ℚ) (ex : List ℕ) :
    candidate_uids m lim ex =
      (avail_uids m lim).filter (fun uid => !(ex.contains uid)) := by
  simp only [candidate_uids, avail_uids, List.filter_filter]
  exact List.filter_congr (fun x _ => by rw [Bool.and_comm])

theorem candidate_uids_no_exclude (m : Metagraph) (lim : ℚ) :
    candidate_uids m lim [] = avail_uids m lim := by
  simp [candidate_uids_eq_filter]

/-- C1: with an empty exclusion set and k ≥ 0, `get_random_uids` succeeds with
a result of size min(k, number of eligible peers), whose uids are pairwise
distinct and all satisfy `check_uid_availability`. -/
theorem get_random_uids_empty_exclude (sampler : List ℕ → ℕ → List ℕ)
    (hs : SampleSpec sampler) (m : Metagraph) (lim : ℚ) (k : ℤ) (hk : 0 ≤ k) :
    ∃ r : List ℕ,
      (get_random_uids sampler m lim k none).result = .ok r ∧
      (r.length : ℤ) = min k ((avail_uids m lim).length : ℤ) ∧
      r.Nodup ∧
      ∀ uid ∈ r, check_uid_availability m uid lim = true := by
  have hcand : candidate_uids m lim [] = avail_uids m lim :=
    candidate_uids_no_exclude m lim
  unfold get_random_uids
  simp only [Option.getD_none, hcand]
  set A := avail_uids m lim with hA
  by_cases h0 : min k (A.length : ℤ) = 0
  · rw [if_pos h0]
    exact ⟨[], rfl, by simp [h0], List.nodup_nil, by simp⟩
  · rw [if_neg h0]
    have hmle : min k (A.length : ℤ) ≤ (A.length : ℤ) := min_le_right _ _
    have hnlt : ¬ ((A.length : ℤ) < min k (A.length : ℤ)) := by omega
    rw [if_neg hnlt]
    simp only []
    rw [if_neg hnlt]
    have hge : 0 ≤ min k (A.length : ℤ) := le_min hk (by positivity)
    rw [pySample, if_neg (by omega)]
    have hle : (min k (A.length : ℤ)).toNat ≤ A.length := by omega
    obtain ⟨hlen, hsub, hnd⟩ := hs A (min k (A.length : ℤ)).toNat hle
    refine ⟨sampler A (min k (A.length : ℤ)).toNat, rfl, ?_, hnd (avail_uids_nodup m lim), ?_⟩
    · rw [hlen]; omega
    · intro uid hu
      exact mem_avail_uids (hsub hu)

theorem candidate_uids_nodup (m : Metagraph) (lim : ℚ) (ex : List ℕ) :
    (candidate_uids m lim ex).Nodup :=
  (List.nodup_range m.n).filter _

theorem candidate_uids_subset_avail (m : Metagraph) (lim : ℚ) (ex : List ℕ) :
    candidate_uids m lim ex ⊆ avail_uids m lim := by
  rw [candidate_uids_eq_filter]
  exact fun a ha => List.mem_of_mem_filter ha

/-- Partition of the eligible pool by the exclusion set: the excluded-but-
available uids and the candidates together account for every eligible uid. -/
theorem avail_split (m : Metagraph) (lim : ℚ) (ex : List ℕ) :
    (avail_uids m lim).length =
      ((avail_uids m lim).filter (fun uid => ex.contains uid)).length +
        (candidate_uids m lim ex).length := by
  rw [candidate_uids_eq_filter]
  exact List.length_eq_length_filter_add _

/-- C4: when k exceeds the candidate count but not the eligible count, the
backfill path still returns exactly k pairwise-distinct eligible uids. -/
theorem get_random_uids_backfill (sampler : List ℕ → ℕ → List ℕ)
    (hs : SampleSpec sampler) (m : Metagraph) (lim : ℚ) (k : ℤ) (ex : List ℕ)
    (hc : ((candidate_uids m lim ex).length : ℤ) < k)
    (he : k ≤ ((avail_uids m lim).length : ℤ)) :
    ∃ r : List ℕ,
      (get_random_uids sampler m lim k (some ex)).result = .ok r ∧
      (r.length : ℤ) = k ∧
      r.Nodup ∧
      ∀ uid ∈ r, check_uid_availability m uid lim = true := by
  have hsplit := avail_split m lim ex
  set A := avail_uids m lim with hA
  set C := candidate_uids m lim ex with hC
  set EA := A.filter (fun uid => ex.contains uid) with hEA
  have hk1 : 1 ≤ k := by omega
  have hEAlen : k - (C.length : ℤ) ≤ (EA.length : ℤ) := by omega
  have hEAne : EA ≠ [] := by
    intro hnil
    rw [hnil] at hEAlen
    simp at hEAlen
    omega
  have hneed : (k - (C.length : ℤ)).toNat ≤ EA.length := by omega
  obtain ⟨hxlen, hxsub, hxnd⟩ := hs EA (k - (C.length : ℤ)).toNat hneed
  set extra := sampler EA (k - (C.length : ℤ)).toNat with hextra
  have hc2len : ((C ++ extra).length : ℤ) = k := by
    rw [List.length_append, hxlen]
    push_cast
    omega
  have hknat : k.toNat ≤ (C ++ extra).length := by omega
  obtain ⟨hrlen, hrsub, hrnd⟩ := hs (C ++ extra) k.toNat hknat
  have hEAnd : EA.Nodup := (avail_uids_nodup m lim).filter _
  have hc2nd : (C ++ extra).Nodup := by
    refine (candidate_uids_nodup m lim ex).append (hxnd hEAnd) ?_
    intro a haC haX
    have h1 : (!(ex.contains a)) = true := by
      have hm := haC
      rw [candidate_uids_eq_filter] at hm
      simpa using (List.mem_filter.mp hm).2
    have h2 : ex.contains a = true := List.of_mem_filter (hxsub haX)
    rw [h2] at h1
    simp at h1
  unfold get_random_uids
  simp only [Option.getD_some]
  rw [← hA, ← hC, min_eq_left he, if_neg (by omega : ¬ k = 0), if_pos hc, ← hEA,
    if_pos hEAne, pySample, min_eq_left hEAlen, if_neg (by omega), ← hextra]
  simp only []
  rw [if_neg (by omega : ¬ (((C ++ extra).length : ℤ) < k)), pySample,
    if_neg (by omega)]
  refine ⟨sampler (C ++ extra) k.toNat, rfl, by rw [hrlen]; omega, hrnd hc2nd, ?_⟩
  intro uid hu
  rcases List.mem_append.mp (hrsub hu) with h | h
  · exact mem_avail_uids (candidate_uids_subset_avail m lim ex h)
  · exact mem_avail_uids (List.mem_of_mem_filter (hxsub h))

theorem pySample_clamp_ok (sampler : List ℕ → ℕ → List ℕ) (pop : List ℕ)
    (k1 : ℤ) (h : 0 ≤ k1) :
    ∃ r, pySample sampler pop
      (if ((pop.length : ℤ) < k1) then (pop.length : ℤ) else k1) = .ok r := by
  by_cases hl : ((pop.length : ℤ) < k1)
  · rw [if_pos hl, pySample, if_neg (by omega)]
    exact ⟨_, rfl⟩
  · rw [if_neg hl, pySample, if_neg (by omega)]
    exact ⟨_, rfl⟩

/-- For every non-negative k the clamping logic keeps the final sample request
within bounds, so no exception is raised. -/
theorem get_random_uids_ok_of_nonneg (sampler : List ℕ → ℕ → List ℕ)
    (m : Metagraph) (lim : ℚ) (k : ℤ) (exclude : Option (List ℕ)) (hk : 0 ≤ k) :
    ∃ r, (get_random_uids sampler m lim k exclude).result = .ok r := by
  unfold get_random_uids
  simp only []
  set ex := exclude.getD [] with hex
  set A := avail_uids m lim with hA
  set C := candidate_uids m lim ex with hC
  by_cases h0 : min k ((A.length : ℤ)) = 0
  · rw [if_pos h0]
    exact ⟨[], rfl⟩
  · rw [if_neg h0]
    by_cases hlt : ((C.length : ℤ) < min k (A.length : ℤ))
    · rw [if_pos hlt]
      set EA := A.filter (fun uid => ex.contains uid) with hEA
      by_cases hne : EA ≠ []
      · rw [if_pos hne, pySample, if_neg (by omega)]
        simp only []
        exact pySample_clamp_ok sampler _ _ (by omega)
      · rw [if_neg hne]
        simp only []
        exact pySample_clamp_ok sampler _ _ (by omega)
    · rw [if_neg hlt]
      simp only []
      exact pySample_clamp_ok sampler _ _ (by omega)

/-- With a negative k, `get_random_uids` runs the whole availability loop and
then raises `ValueError` from the final `random.sample` call. -/
theorem get_random_uids_error_of_neg (sampler : List ℕ → ℕ → List ℕ)
    (m : Metagraph) (lim : ℚ) (k : ℤ) (exclude : Option (List ℕ)) (hk : k < 0) :
    (get_random_uids sampler m lim k exclude).result = .error "ValueError" := by
  unfold get_random_uids
  simp only []
  set ex := exclude.getD [] with hex
  set A := avail_uids m lim with hA
  set C := candidate_uids m lim ex with hC
  have hmin : min k ((A.length : ℤ)) = k := min_eq_left (by omega)
  rw [hmin, if_neg (by omega : ¬ k = 0),
    if_neg (by omega : ¬ ((C.length : ℤ) < k))]
  simp only []
  rw [if_neg (by omega : ¬ ((C.length : ℤ) < k)), pySample, if_pos (Or.inl hk)]

/-- Registry with three eligible peers, used to instantiate witnesses. -/
def mThree : Metagraph :=
  { n := 3, axonServing := fun _ => true, validator_permit := fun _ => false,
    S := fun _ => 0 }

/-- Registry with one eligible peer, used by the C5 counterexample. -/
def mOne : Metagraph :=
  { n := 1, axonServing := fun _ => true, validator_permit := fun _ => false,
    S := fun _ => 0 }

/-- C1 witness: on a three-peer registry with k = 2 and no exclusions, the
sample has size 2, is duplicate-free and eligible. -/
theorem get_random_uids_empty_exclude_witness :
    ∃ r : List ℕ,
      (get_random_uids takeSampler mThree 0 2 none).result = .ok r ∧
      (r.length : ℤ) = min 2 ((avail_uids mThree 0).length : ℤ) ∧
      r.Nodup ∧
      ∀ uid ∈ r, check_uid_availability mThree uid 0 = true :=
  get_random_uids_empty_exclude takeSampler takeSampler_spec mThree 0 2
    (by decide)

/-- C4 witness: on a three-peer registry with every peer excluded and k = 2,
backfill still returns 2 distinct eligible uids. -/
theorem get_random_uids_backfill_witness :
    ∃ r : List ℕ,
      (get_random_uids takeSampler mThree 0 2 (some [0, 1, 2])).result = .ok r ∧
      (r.length : ℤ) = 2 ∧
      r.Nodup ∧
      ∀ uid ∈ r, check_uid_availability mThree uid 0 = true :=
  get_random_uids_backfill takeSampler takeSampler_spec mThree 0 2 [0, 1, 2]
    (by decide) (by decide)

/-- C5 (as stated) is false: with k = -1 on a one-peer registry the call does
fail, but the availability loop has already scanned the registry entry
(`scanned = 1`, not 0), and the failure is the `ValueError` raised by the
final `random.sample` call rather than a pre-scan rejection. -/
theorem get_random_uids_scans_before_reject :
    (get_random_uids takeSampler mOne 0 (-1) none).scanned = 1 ∧
    (get_random_uids takeSampler mOne 0 (-1) none).result = .error "ValueError" :=
  ⟨rfl, rfl⟩

/-- C5 (amended): `get_random_uids` fails if and only if k is negative (the
`ValueError` from the final `random.sample`), and the availability loop scans
all `m.n` registry entries on every call — including the failing ones, so the
rejection comes after the scan, not before it. -/
theorem get_random_uids_fail_iff_negative (sampler : List ℕ → ℕ → List ℕ)
    (m : Metagraph) (lim : ℚ) (k : ℤ) (exclude : Option (List ℕ)) :
    ((∃ e, (get_random_uids sampler m lim k exclude).result = .error e) ↔ k < 0)
      ∧ (get_random_uids sampler m lim k exclude).scanned = m.n := by
  refine ⟨⟨?_, ?_⟩, rfl⟩
  · rintro ⟨e, he⟩
    by_contra hk
    obtain ⟨r, hr⟩ :=
      get_random_uids_ok_of_nonneg sampler m lim k exclude (by omega)
    rw [hr] at he
    cases he
  · intro hk
    exact ⟨"ValueError", get_random_uids_error_of_neg sampler m lim k exclude hk⟩

/-! ## Mock transport model (src/template/mock.py) -/

/-- Protocol metadata attached to a response (`bt.TerminalInfo`): status code,
status message, and the recorded elapsed time (the source stores
`str(actual_time)`; we keep the value itself). -/
structure TerminalInfo where
  status_code : ℕ
  status_message : String
  process_time : Option ℚ
deriving DecidableEq

/-- The stub-protocol message (`Dummy` in template/protocol.py, whose axon-side
behaviour lines 110-122 of mock.py rely on): one integer input field, one
output field that starts out unset, and the attached dendrite metadata.
`hasattr(s, 'dummy_input')` is true for this synapse. -/
structure Synapse where
  dummy_input : ℤ
  dummy_output : Option ℤ
  dendrite : TerminalInfo
deriving DecidableEq

/-- Modelled from the spec: `Dummy.deserialize` lives in template/protocol.py,
which is not under src/; per §6 and the tests (responses compared with plain
integers), deserialization extracts the output field. -/
def Synapse.deserialize (s : Synapse) : Option ℤ := s.dummy_output

/-- src/template/mock.py lines 93-128 minus the final deserialization (handled
in `mockForward`): the simulated per-peer request.  `actual_time` is the
measured elapsed wall-clock time.  The task copies the caller's synapse and
`preprocess_synapse_for_request` (bittensor library) attaches a fresh metadata
record to the copy; classification then compares `actual_time` with `timeout`
(line 110: the boundary is `>=`, inclusive on the timeout side) and fills the
copy's output and metadata fields. -/
def single_axon_response (synapse : Synapse) (timeout actual_time : ℚ) :
    Synapse :=
  let s : Synapse :=
    { synapse with dendrite := ⟨0, "", none⟩ }
  if actual_time ≥ timeout then
    { s with
        dummy_output := some s.dummy_input,
        dendrite := { s.dendrite with
          status_code := 408, status_message := "Timeout",
          process_time := some actual_time } }
  else
    { s with
        dummy_output := some (s.dummy_input * 2),
        dendrite := { s.dendrite with
          status_code := 200, status_message := "OK",
          process_time := some actual_time } }

/-- A gathered per-peer result: the synapse itself, or its deserialized value
when `deserialize` was requested (mock.py lines 125-128). -/
inductive Response
  | syn (s : Synapse)
  | deser (v : Option ℤ)
deriving DecidableEq

def finishTask (deserialize : Bool) (s : Synapse) : Response :=
  if deserialize then .deser s.deserialize else .syn s

/-- A peer address (`bt.AxonInfo`); only its presence in the input list
matters to the mock transport. -/
structure AxonInfo where
  ip : String
  port : ℕ
deriving DecidableEq

/-- src/template/mock.py lines 64-137 (`MockDendrite.forward`).  Streaming is
rejected up front (lines 87-88).  Otherwise one task per axon runs
concurrently; `elapsed i` is task i's measured elapsed time and `order` is the
order in which the tasks happen to complete (driven by the random delays).
`asyncio.gather` (lines 130-135) places each completed task's result back at
its input index, which the final `List.range`/`find?` step models. -/
def mockForward (axons : List AxonInfo) (synapse : Synapse) (timeout : ℚ)
    (deserialize streaming : Bool) (elapsed : ℕ → ℚ) (order : List ℕ) :
    Except String (List (Option Response)) :=
  if streaming then .error "Streaming not implemented yet."
  else
    let completed := order.map
      (fun i => (i, finishTask deserialize (single_axon_response synapse timeout (elapsed i))))
    .ok ((List.range axons.length).map
      (fun i => (completed.find? (fun p => p.1 == i)).map Prod.snd))

/-- Looking up index i among completed tasks recovers task i's result, no
matter in which order the tasks completed. -/
theorem find_completed {α : Type} (g : ℕ → α) (order : List ℕ) (i : ℕ)
    (h : i ∈ order) :
    ((order.map (fun j => (j, g j))).find? (fun p => p.1 == i)) = some (i, g i) := by
  induction order with
  | nil => cases h
  | cons j rest ih =>
      by_cases hj : j = i
      · subst hj
        simp [List.find?]
      · rw [List.map_cons, List.find?_cons_of_neg _ (by simpa using hj)]
        exact ih (by
          rcases List.mem_cons.mp h with h' | h'
          · exact absurd h'.symm hj
          · exact h')

/-- C2: a simulated per-peer request classifies as Timeout (code 408, message
"Timeout") exactly when the elapsed time reaches the timeout — the boundary
case elapsed = timeout included — and otherwise as Success (code 200, message
"OK") with output equal to the stub protocol's transformation 2·input. -/
theorem single_axon_response_classification (synapse : Synapse) (timeout t : ℚ) :
    (timeout ≤ t →
      (single_axon_response synapse timeout t).dendrite.status_code = 408 ∧
      (single_axon_response synapse timeout t).dendrite.status_message = "Timeout")
    ∧
    (t < timeout →
      (single_axon_response synapse timeout t).dendrite.status_code = 200 ∧
      (single_axon_response synapse timeout t).dendrite.status_message = "OK" ∧
      (single_axon_response synapse timeout t).dummy_output =
        some (2 * synapse.dummy_input)) := by
  constructor
  · intro h
    simp only [single_axon_response]
    rw [if_pos h]
    exact ⟨rfl, rfl⟩
  · intro h
    simp only [single_axon_response]
    rw [if_neg (not_le.mpr h)]
    refine ⟨rfl, rfl, ?_⟩
    simp [mul_comm]

/-- C2 witness: with input 42 and timeout 1, elapsed exactly 1 classifies as
Timeout and elapsed 0 classifies as Success with output 84. -/
theorem single_axon_response_classification_witness :
    ((single_axon_response ⟨42, none, ⟨0, "", none⟩⟩ 1 1).dendrite.status_code = 408 ∧
     (single_axon_response ⟨42, none, ⟨0, "", none⟩⟩ 1 1).dendrite.status_message = "Timeout")
    ∧
    ((single_axon_response ⟨42, none, ⟨0, "", none⟩⟩ 1 0).dendrite.status_code = 200 ∧
     (single_axon_response ⟨42, none, ⟨0, "", none⟩⟩ 1 0).dendrite.status_message = "OK" ∧
     (single_axon_response ⟨42, none, ⟨0, "", none⟩⟩ 1 0).dummy_output = some (2 * 42)) :=
  ⟨(single_axon_response_classification ⟨42, none, ⟨0, "", none⟩⟩ 1 1).1 (le_refl 1),
   (single_axon_response_classification ⟨42, none, ⟨0, "", none⟩⟩ 1 0).2 (by norm_num)⟩

/-- C3 (as stated) is false: at the timeout boundary with input 42 the code
sets the response payload to the input value 42 (mock.py line 111), not to the
pre-call default (unset or 0). -/
theorem timeout_output_not_default :
    (single_axon_response ⟨42, none, ⟨0, "", none⟩⟩ 1 1).dummy_output = some 42 ∧
    some (42 : ℤ) ≠ none ∧ some (42 : ℤ) ≠ some 0 := by
  refine ⟨?_, by decide, by decide⟩
  simp only [single_axon_response]
  rw [if_pos (le_refl (1 : ℚ))]

/-- C3 (amended): a Timeout-classified response carries the input value as its
payload (`dummy_output = dummy_input`; the `hasattr` fallback 0 cannot fire
for the stub protocol), which differs from the successful transformation
2·input whenever the input is non-zero. -/
theorem timeout_output_is_input (synapse : Synapse) (timeout t : ℚ)
    (h : timeout ≤ t) :
    (single_axon_response synapse timeout t).dummy_output =
      some synapse.dummy_input ∧
    (synapse.dummy_input ≠ 0 →
      some synapse.dummy_input ≠ some (2 * synapse.dummy_input)) := by
  constructor
  · simp only [single_axon_response]
    rw [if_pos h]
  · intro h0
    simp only [ne_eq, Option.some.injEq]
    omega

/-- C3 amended witness: input 42, timeout = elapsed = 1. -/
theorem timeout_output_is_input_witness :
    (single_axon_response ⟨42, none, ⟨0, "", none⟩⟩ 1 1).dummy_output = some 42 ∧
    ((42 : ℤ) ≠ 0 → some (42 : ℤ) ≠ some (2 * 42)) :=
  timeout_output_is_input ⟨42, none, ⟨0, "", none⟩⟩ 1 1 (le_refl 1)

/-- C6: for any completion order of the concurrent per-peer tasks, the
gathered result list has the input list's length and carries, at each
position, the response of the peer at that position. -/
theorem mockForward_order_invariant (axons : List AxonInfo) (synapse : Synapse)
    (timeout : ℚ) (deserialize : Bool) (elapsed : ℕ → ℚ) (order : List ℕ)
    (hperm : order.Perm (List.range axons.length)) :
    ∃ rs : List (Option Response),
      mockForward axons synapse timeout deserialize false elapsed order = .ok rs ∧
      rs.length = axons.length ∧
      ∀ i, i < axons.length →
        rs[i]? = some (some (finishTask deserialize
          (single_axon_response synapse timeout (elapsed i)))) := by
  have hmem : ∀ i, i < axons.length → i ∈ order := fun i hi =>
    hperm.mem_iff.mpr (List.mem_range.mpr hi)
  refine ⟨_, rfl, by simp [mockForward], ?_⟩
  intro i hi
  show ((List.range axons.length).map _)[i]? = _
  rw [List.getElem?_map, List.getElem?_range hi]
  simp only [Option.map_some']
  rw [find_completed
    (fun j => finishTask deserialize (single_axon_response synapse timeout (elapsed j)))
    order i (hmem i hi)]
  rfl

/-- Two-peer input list for the C6 witness. -/
def axTwo : List AxonInfo := [⟨"127.0.0.0", 8091⟩, ⟨"127.0.0.0", 8091⟩]

/-- C6 witness: two peers whose tasks complete in reversed order still yield
the responses in input order. -/
theorem mockForward_order_invariant_witness :
    ∃ rs : List (Option Response),
      mockForward axTwo ⟨42, none, ⟨0, "", none⟩⟩ 10 true false
        (fun i => (i : ℚ)) [1, 0] = .ok rs ∧
      rs.length = axTwo.length ∧
      ∀ i, i < axTwo.length →
        rs[i]? = some (some (finishTask true
          (single_axon_response ⟨42, none, ⟨0, "", none⟩⟩ 10 ((i : ℚ))))) :=
  mockForward_order_invariant axTwo ⟨42, none, ⟨0, "", none⟩⟩ 10 true
    (fun i => (i : ℚ)) [1, 0] (by decide)

/-- C9: requesting streaming on the mock transport fails immediately with the
NotImplemented error, before any per-peer task is created — no result list is
produced. -/
theorem mockForward_streaming_unsupported (axons : List AxonInfo)
    (synapse : Synapse) (timeout : ℚ) (deserialize : Bool) (elapsed : ℕ → ℚ)
    (order : List ℕ) :
    mockForward axons synapse timeout deserialize true elapsed order =
      .error "Streaming not implemented yet." := rfl

/-! ## Aliasing model of the mock transport (C8)

pydantic's `synapse.copy()` is a shallow copy, so whether a per-task mutation
can reach the caller's nested metadata is a question of object identity.  This
model makes identity explicit: `TerminalInfo` records live in a store and
synapses hold references into it. -/

abbrev Store := List TerminalInfo

/-- A synapse whose nested metadata field is a reference into the store. -/
structure HSynapse where
  dummy_input : ℤ
  dummy_output : Option ℤ
  dendrite : ℕ

/-- `synapse.copy()` (mock.py line 96): pydantic shallow copy — fresh
top-level fields, shared `dendrite` reference. -/
def hcopy (s : HSynapse) : HSynapse := s

/-- Modelled from the spec: `preprocess_synapse_for_request` is bittensor
library code (an external collaborator, only called at mock.py line 99); it
attaches a freshly allocated request-metadata record to the copy, so the copy
no longer aliases the caller's record. -/
def hpreprocess (st : Store) (s : HSynapse) : Store × HSynapse :=
  (st ++ [⟨0, "", none⟩], { s with dendrite := st.length })

/-- Store-level reading of mock.py lines 93-128: copy the caller's synapse,
attach fresh metadata, then write the classification into the record the copy
now references (the three attribute writes on `s.dendrite`). -/
def hsingle_axon_response (st : Store) (synapse : HSynapse)
    (timeout actual_time : ℚ) : Store × HSynapse :=
  let s := hcopy synapse
  let pre := hpreprocess st s
  if actual_time ≥ timeout then
    (pre.1.set pre.2.dendrite ⟨408, "Timeout", some actual_time⟩,
     { pre.2 with dummy_output := some pre.2.dummy_input })
  else
    (pre.1.set pre.2.dendrite ⟨200, "OK", some actual_time⟩,
     { pre.2 with dummy_output := some (pre.2.dummy_input * 2) })

/-- The fan-out of `MockDendrite.forward` over the per-task elapsed times,
threading the shared object store through the tasks. -/
def hforward (st : Store) (synapse : HSynapse) (timeout : ℚ) :
    List ℚ → Store × List HSynapse
  | [] => (st, [])
  | t :: ts =>
      let one := hsingle_axon_response st synapse timeout t
      let rest := hforward one.1 synapse timeout ts
      (rest.1, one.2 :: rest.2)

theorem hsingle_preserves (st : Store) (synapse : HSynapse) (timeout t : ℚ)
    (p : ℕ) (hp : p < st.length) :
    ((hsingle_axon_response st synapse timeout t).1)[p]? = st[p]? ∧
      st.length < (hsingle_axon_response st synapse timeout t).1.length := by
  unfold hsingle_axon_response hcopy hpreprocess
  simp only []
  by_cases h : timeout ≤ t
  · rw [if_pos h]
    exact ⟨by rw [List.getElem?_set_ne (by omega), List.getElem?_append_left hp],
      by simp⟩
  · rw [if_neg h]
    exact ⟨by rw [List.getElem?_set_ne (by omega), List.getElem?_append_left hp],
      by simp⟩

theorem hforward_preserves (synapse : HSynapse) (timeout : ℚ) (ts : List ℚ) :
    ∀ (st : Store) (p : ℕ), p < st.length →
      ((hforward st synapse timeout ts).1)[p]? = st[p]? := by
  induction ts with
  | nil => intro st p hp; rfl
  | cons t ts ih =>
      intro st p hp
      obtain ⟨h1, h2⟩ := hsingle_preserves st synapse timeout t p hp
      unfold hforward
      simp only []
      rw [ih _ p (by omega), h1]

/-- C8: after a mock forward call over any task list, every pre-existing
object in the store — in particular the record the caller's synapse
references — is untouched: each per-peer task wrote only the fresh record
attached to its own copy.  With the top-level fields copied by value, the
caller's original message, nested protocol metadata included, is unchanged. -/
theorem hforward_caller_unchanged (st : Store) (synapse : HSynapse)
    (timeout : ℚ) (ts : List ℚ) (hp : synapse.dendrite < st.length) :
    ((hforward st synapse timeout ts).1)[synapse.dendrite]? =
      st[synapse.dendrite]? ∧
    ∀ p, p < st.length → ((hforward st synapse timeout ts).1)[p]? = st[p]? :=
  ⟨hforward_preserves synapse timeout ts st synapse.dendrite hp,
   fun p hq => hforward_preserves synapse timeout ts st p hq⟩

/-- C8 witness: a one-record store, a two-task call, the caller's record
survives unchanged. -/
theorem hforward_caller_unchanged_witness :
    ((hforward [⟨0, "", none⟩] ⟨42, none, 0⟩ 1 [0, 2]).1)[(0 : ℕ)]? =
      [(⟨0, "", none⟩ : TerminalInfo)][(0 : ℕ)]? ∧
    ∀ p, p < [(⟨0, "", none⟩ : TerminalInfo)].length →
      ((hforward [⟨0, "", none⟩] ⟨42, none, 0⟩ 1 [0, 2]).1)[p]? =
        [(⟨0, "", none⟩ : TerminalInfo)][p]? :=
  hforward_caller_unchanged [⟨0, "", none⟩] ⟨42, none, 0⟩ 1 [0, 2] (by decide)

/-! ## Validator query cycle (src/template/validator/forward.py) -/

/-- A reward value as produced by the reward callback: an IEEE float
abstracted as either NaN or an actual number. -/
inductive RVal
  | nan
  | val (q : ℚ)
deriving DecidableEq

def RVal.isNaN : RVal → Bool
  | .nan => true
  | .val _ => false

/-- Trace of one `forward` cycle: the arguments `update_scores` was invoked
with (if at all) and the number of warning log lines emitted.  The cycle body
raises no exception on these paths (the try/except at lines 40-76 re-raises
only errors from sampling/transport, which the parameters abstract). -/
structure CycleTrace where
  updateCall : Option (List RVal × List ℕ)
  warnings : ℕ

/-- src/template/validator/forward.py lines 43-72: one query cycle, with the
sampled uids and the array returned by the reward callback (`get_rewards`, an
external/injected callback per spec §2) as parameters.  No miners: warn and
return.  Non-empty rewards: pass them — exactly as received — to
`update_scores`.  Empty rewards: warn, no score update. -/
def forwardCycle (miner_uids : List ℕ) (rewards : List RVal) : CycleTrace :=
  if miner_uids.length = 0 then
    { updateCall := none, warnings := 1 }
  else if rewards.length > 0 then
    { updateCall := some (rewards, miner_uids), warnings := 0 }
  else
    { updateCall := none, warnings := 1 }

/-- NaN sanitization: replace each NaN entry by 0. -/
def sanitize (rewards : List RVal) : List RVal :=
  rewards.map (fun r => if r.isNaN then RVal.val 0 else r)

/-- Modelled from the spec: `update_scores` lives in template/base/validator.py,
which is not under src/ (only its caller forward.py and its test
`test_reward_with_nan` are).  Per spec §6/§7 and the test, it tolerates NaN
rewards without raising: it emits a warning when any entry is NaN, replaces
NaN entries by 0, and applies the sanitized values to the scores state at the
given uids.  Returns (new scores, warnings emitted). -/
def update_scores (scores : List RVal) (rewards : List RVal) (uids : List ℕ) :
    List RVal × ℕ :=
  let w := if rewards.any RVal.isNaN then 1 else 0
  ((uids.zip (sanitize rewards)).foldl (fun sc p => sc.set p.1 p.2) scores, w)

/-- The scores state after one cycle: unchanged unless the cycle invoked
`update_scores`. -/
def cycleScores (scores : List RVal) (miner_uids : List ℕ)
    (rewards : List RVal) : List RVal :=
  match (forwardCycle miner_uids rewards).updateCall with
  | none => scores
  | some (rw, us) => (update_scores scores rw us).1

/-- C7 (as stated) is false: with one sampled miner and the reward callback
returning the single-entry array [NaN], `forward` invokes the score-update
callback with that array as is — the score-update call does receive a NaN
value; no sanitization happens in `forward` before the call. -/
theorem forward_passes_nan_to_update :
    (forwardCycle [0] [RVal.nan]).updateCall = some ([RVal.nan], [0]) ∧
    [RVal.nan].any RVal.isNaN = true :=
  ⟨rfl, rfl⟩

/-- C7 (amended): `forward` passes the reward array unchanged to
`update_scores`; the sanitization lives inside `update_scores` itself, which
replaces every NaN entry by 0 before touching the scores and emits a warning
whenever the array contained a NaN — so no NaN reaches the scores state and
the cycle completes without crashing. -/
theorem forward_nan_sanitized_inside_update (miner_uids : List ℕ)
    (rewards : List RVal) (scores : List RVal) (hu : miner_uids ≠ [])
    (hr : rewards ≠ []) :
    (forwardCycle miner_uids rewards).updateCall = some (rewards, miner_uids) ∧
    (sanitize rewards).all (fun r => !r.isNaN) = true ∧
    (rewards.any RVal.isNaN = true →
      (update_scores scores rewards miner_uids).2 = 1) := by
  refine ⟨?_, ?_, ?_⟩
  · rw [forwardCycle,
      if_neg (by simpa [List.length_eq_zero] using hu),
      if_pos (by simpa [Nat.pos_iff_ne_zero, List.length_eq_zero] using hr)]
  · simp only [sanitize, List.all_eq_true, List.mem_map]
    rintro r ⟨x, _, rfl⟩
    cases x <;> simp [RVal.isNaN]
  · intro h
    rw [update_scores]
    simp only [h, if_pos]

/-- C7 amended witness: one miner, the reward array [NaN]. -/
theorem forward_nan_sanitized_inside_update_witness :
    (forwardCycle [0] [RVal.nan]).updateCall = some ([RVal.nan], [0]) ∧
    (sanitize [RVal.nan]).all (fun r => !r.isNaN) = true ∧
    ([RVal.nan].any RVal.isNaN = true →
      (update_scores [RVal.val 1] [RVal.nan] [0]).2 = 1) :=
  forward_nan_sanitized_inside_update [0] [RVal.nan] [RVal.val 1]
    (by decide) (by decide)

/-- C10: when the sampled miner set is non-empty but the reward computation
returns an empty array, `forward` does not invoke `update_scores` at all, the
scores state is left unchanged, and the cycle completes emitting a warning. -/
theorem forward_empty_rewards_skips_update (miner_uids : List ℕ)
    (scores : List RVal) (hu : miner_uids ≠ []) :
    (forwardCycle miner_uids []).updateCall = none ∧
    1 ≤ (forwardCycle miner_uids []).warnings ∧
    cycleScores scores miner_uids [] = scores := by
  have h : forwardCycle miner_uids [] =
      { updateCall := none, warnings := 1 } := by
    rw [forwardCycle, if_neg (by simpa [List.length_eq_zero] using hu)]
    simp
  refine ⟨by rw [h], by rw [h], ?_⟩
  rw [cycleScores, h]

/-- C10 witness: one sampled miner, empty rewards, a one-entry scores state. -/
theorem forward_empty_rewards_skips_update_witness :
    (forwardCycle [0] []).updateCall = none ∧
    1 ≤ (forwardCycle [0] []).warnings ∧
    cycleScores [RVal.val 1] [0] [] = [RVal.val 1] :=
  forward_empty_rewards_skips_update [0] [RVal.val 1] (by decide)

end Pictensor
